import Mathlib

/-!
Shallow embedding of the poker tournament CRUD backend (src/main.py, src/db.py).

The database (PostgreSQL, reached through a fresh autocommit connection per
request in `db.get_conn`) is modelled as an explicit `DB` state: one list of
rows per table, plus the serial-id counters the engine would maintain.  Each
HTTP handler of `main.py` becomes a pure function from the current `DB` (and
the request payload) to the new `DB` and the response.  A handler that can
`raise HTTPException(status, detail)` returns `Except HTTPError _`; the
results endpoint, which never raises but can return a JSON body carrying an
`error` field, returns the dedicated `AddResultsResponse` type.

SQL constructs are translated as follows: `WHERE` is `List.filter`,
`fetchone` after a keyed `SELECT` is `List.find?`, an inner `JOIN` is
`List.filterMap` through `find?`, a `LEFT JOIN` is an `Option`-valued lookup,
`ORDER BY` is a stable insertion sort, `LIMIT` is `List.take`, SQL `lower()`
is `Char.toLower` applied characterwise, and `LIKE` is a faithful pattern
matcher supporting the `%` and `_` wildcards and the default `\` escape.
`INSERT .. ON CONFLICT (game_id, player_id) DO UPDATE` is an upsert on the
results list.  Timestamps and datetimes are opaque (`Nat`); referential
integrity, which the engine enforces, appears only as explicit hypotheses.
-/

namespace PokerApi

/-- Row of the `venues` table: surrogate id, name, optional address, city,
state and insertion timestamp. -/
structure Venue where
  venue_id : Nat
  venue_name : String
  address : Option String
  city : String
  state : String
  created_at : Nat
deriving DecidableEq

/-- Row of the `players` table. -/
structure Player where
  player_id : Nat
  display_name : String
  avatar_url : Option String
  created_at : Nat
deriving DecidableEq

/-- Row of the `games` table. -/
structure Game where
  game_id : Nat
  game_title : String
  start_time : Nat
  status : String
  venue_id : Nat
deriving DecidableEq

/-- Row of the `results` table, composite-keyed on `(game_id, player_id)`. -/
structure ResultRow where
  game_id : Nat
  player_id : Nat
  finish_rank : Int
  points : Int
  kos : Int
  eliminated_by_player_id : Option Nat
deriving DecidableEq

/-- Whole database state: the four tables and the serial-id sequences. -/
structure DB where
  venues : List Venue
  players : List Player
  games : List Game
  results : List ResultRow
  next_venue_id : Nat
  next_player_id : Nat
  next_game_id : Nat
deriving DecidableEq

/-- Request body of `POST /games` (`class GameCreate` in main.py); note it has
no status field at all. -/
structure GameCreate where
  game_title : String
  start_time : Nat
  venue_id : Nat
deriving DecidableEq

/-- Request body element of `POST /games/{id}/results` (`class ResultCreate`). -/
structure ResultCreate where
  finish_rank : Int
  player_id : Nat
  points : Int
  kos : Int
  eliminated_by_player_id : Option Nat := none
deriving DecidableEq

/-- Request body of `POST /players` (`class PlayerCreate`). -/
structure PlayerCreate where
  display_name : String
  avatar_url : Option String := none
deriving DecidableEq

/-- Request body of `POST /venues` (`class VenueCreate`), with the pydantic
defaults for city and state. -/
structure VenueCreate where
  venue_name : String
  address : Option String := none
  city : String := "Atlanta"
  state : String := "GA"
deriving DecidableEq

/-- Payload of a raised `HTTPException(status_code, detail)`. -/
structure HTTPError where
  status_code : Nat
  detail : String
deriving DecidableEq

/-- SQL `lower()` applied to a text value, as the list of lowercased
characters. -/
def lowerChars (s : String) : List Char := s.data.map Char.toLower

/-- Detail string of the 404 raised by `get_game` and of the error body
returned by `add_results` (`f"Game {game_id} not found"`). -/
def gameNotFoundMsg (gid : Nat) : String := s!"Game {gid} not found"

/-- Detail string of the 400 raised by `create_game`
(`f"venue_id {game.venue_id} does not exist"`). -/
def venueMissingMsg (vid : Nat) : String := s!"venue_id {vid} does not exist"

/-- Detail string of the 409 raised by `create_player`
(`f"player '{player.display_name}' already exists"`). -/
def playerDupMsg (n : String) : String := s!"player \x27{n}\x27 already exists"

/-- Detail string of the 409 raised by `create_venue`
(`f"venue '{venue.venue_name}' already exists"`). -/
def venueDupMsg (n : String) : String := s!"venue \x27{n}\x27 already exists"

/-- Token of a parsed SQL `LIKE` pattern: a literal character, the `_`
single-character wildcard, the `%` any-sequence wildcard, or the
never-matching token produced by a trailing escape character (an error case
in PostgreSQL, unreachable for the `%...%` patterns this service builds). -/
inductive Tok where
  | lit (c : Char)
  | one
  | many
  | bad
deriving DecidableEq

/-- Parse a `LIKE` pattern, honouring the default `\` escape as PostgreSQL
does: an escaped character is a literal. -/
def lexLike : List Char → List Tok
  | [] => []
  | c :: ps =>
    if c == '\\' then
      match ps with
      | [] => [Tok.bad]
      | c2 :: tail => Tok.lit c2 :: lexLike tail
    else if c == '%' then Tok.many :: lexLike ps
    else if c == '_' then Tok.one :: lexLike ps
    else Tok.lit c :: lexLike ps

/-- All suffixes of a character list, longest first (including the empty
suffix). -/
def sufs : List Char → List (List Char)
  | [] => [[]]
  | c :: s => (c :: s) :: sufs s

/-- Match a parsed `LIKE` pattern against a character list.  `%` may swallow
any suffix, `_` exactly one character. -/
def toksMatch : List Tok → List Char → Bool
  | [], [] => true
  | [], _ :: _ => false
  | Tok.lit _ :: _, [] => false
  | Tok.lit c :: ts, c2 :: s => c == c2 && toksMatch ts s
  | Tok.one :: _, [] => false
  | Tok.one :: ts, _ :: s => toksMatch ts s
  | Tok.many :: ts, s => (sufs s).any (fun t => toksMatch ts t)
  | Tok.bad :: _, _ => false

/-- SQL `LIKE`: parse the pattern, then match. -/
def likeMatch (p s : List Char) : Bool := toksMatch (lexLike p) s

/-- Filter used by the three list endpoints:
`lower(column) LIKE lower('%' || q || '%')`. -/
def likeFilterCI (q s : String) : Bool :=
  likeMatch (lowerChars ("%" ++ q ++ "%")) (lowerChars s)

/-- Stable insertion step for `ORDER BY`. -/
def insertSorted (le : α → α → Bool) (a : α) : List α → List α
  | [] => [a]
  | b :: t => if le a b then a :: b :: t else b :: insertSorted le a t

/-- Stable sort modelling SQL `ORDER BY` with a boolean `le` comparator. -/
def sortRows (le : α → α → Bool) : List α → List α
  | [] => []
  | a :: t => insertSorted le a (sortRows le t)

/-- There is a game row with this id (`select 1 from games where game_id = %s`
finding a row). -/
def gameExists (db : DB) (gid : Nat) : Bool :=
  db.games.any (fun g => g.game_id == gid)

/-- There is a player row with this id. -/
def playerExists (db : DB) (pid : Nat) : Bool :=
  db.players.any (fun p => p.player_id == pid)

/-- Joined output row of `GET /games`. -/
structure GameRow where
  game_id : Nat
  game_title : String
  start_time : Nat
  status : String
  venue_name : String
deriving DecidableEq

/-- GET /games (`list_games`): inner-join games with venues, optionally
filter by case-insensitive venue-name `LIKE` when the `venue` parameter is
truthy (present and non-empty), order by `start_time` descending, take
`limit`. -/
def list_games (db : DB) (limit : Nat) (venue : Option String) : List GameRow :=
  let joined := db.games.filterMap (fun g =>
    (db.venues.find? (fun v => v.venue_id == g.venue_id)).map (fun v => (g, v)))
  let filtered :=
    match venue with
    | none => joined
    | some vq =>
      if vq = "" then joined
      else joined.filter (fun gv => likeFilterCI vq gv.2.venue_name)
  ((sortRows (fun a b => decide (b.1.start_time ≤ a.1.start_time)) filtered).take limit).map
    (fun gv => ⟨gv.1.game_id, gv.1.game_title, gv.1.start_time, gv.1.status, gv.2.venue_name⟩)

/-- GET /players (`list_players`): optional case-insensitive `LIKE` search on
`display_name` when `q` is truthy, order by `created_at` descending, take
`limit`. -/
def list_players (db : DB) (limit : Nat) (q : Option String) : List Player :=
  let rows :=
    match q with
    | none => db.players
    | some qs =>
      if qs = "" then db.players
      else db.players.filter (fun p => likeFilterCI qs p.display_name)
  (sortRows (fun a b => decide (b.created_at ≤ a.created_at)) rows).take limit

/-- GET /venues (`list_venues`): optional case-insensitive `LIKE` search on
`venue_name` when `q` is truthy, order by `created_at` descending, take
`limit`. -/
def list_venues (db : DB) (limit : Nat) (q : Option String) : List Venue :=
  let rows :=
    match q with
    | none => db.venues
    | some qs =>
      if qs = "" then db.venues
      else db.venues.filter (fun v => likeFilterCI qs v.venue_name)
  (sortRows (fun a b => decide (b.created_at ≤ a.created_at)) rows).take limit

/-- Leaderboard row shared by `GET /games/{id}` and `GET /games/{id}/results`:
the player (and optional eliminator) resolved to display names. -/
structure LeaderRow where
  finish_rank : Int
  player : String
  points : Int
  kos : Int
  eliminated_by : Option String
deriving DecidableEq

/-- Results query of main.py (`results_sql` / the `game_results` SQL): filter
on `game_id`, inner-join the participant player (a row without one is
dropped), left-join the eliminator, order by `finish_rank` ascending. -/
def leaderboardRows (db : DB) (gid : Nat) : List LeaderRow :=
  sortRows (fun a b => decide (a.finish_rank ≤ b.finish_rank))
    ((db.results.filter (fun r => r.game_id == gid)).filterMap (fun r =>
      (db.players.find? (fun p => p.player_id == r.player_id)).map (fun p =>
        { finish_rank := r.finish_rank
          player := p.display_name
          points := r.points
          kos := r.kos
          eliminated_by :=
            (r.eliminated_by_player_id.bind (fun e =>
              db.players.find? (fun pe => pe.player_id == e))).map
                (fun pe => pe.display_name) })))

/-- GET /games/{game_id}/results (`game_results`): the leaderboard only, with
no game-existence check; an unknown game yields the empty list. -/
def game_results (db : DB) (gid : Nat) : List LeaderRow := leaderboardRows db gid

/-- Response of `GET /games/{game_id}`: game core fields, embedded venue, and
the leaderboard. -/
structure GameDetail where
  game_id : Nat
  game_title : String
  start_time : Nat
  status : String
  venue_id : Nat
  venue_name : String
  results : List LeaderRow
deriving DecidableEq

/-- GET /games/{game_id} (`get_game`): fetch the game joined with its venue;
if the join yields no row, raise 404; otherwise return the row plus the
leaderboard. -/
def get_game (db : DB) (gid : Nat) : Except HTTPError GameDetail :=
  match db.games.find? (fun g => g.game_id == gid) with
  | none => Except.error ⟨404, gameNotFoundMsg gid⟩
  | some g =>
    match db.venues.find? (fun v => v.venue_id == g.venue_id) with
    | none => Except.error ⟨404, gameNotFoundMsg gid⟩
    | some v =>
      Except.ok ⟨g.game_id, g.game_title, g.start_time, g.status,
        v.venue_id, v.venue_name, leaderboardRows db gid⟩

/-- Flattened response of `POST /games` (created game with embedded venue). -/
structure GameCreated where
  game_id : Nat
  game_title : String
  start_time : Nat
  status : String
  venue_id : Nat
  venue_name : String
deriving DecidableEq

/-- POST /games (`create_game`): check the referenced venue exists (400 if
not), then insert the game with status hard-coded to "scheduled" and return
it with the venue name from the check query. -/
def create_game (db : DB) (gc : GameCreate) : DB × Except HTTPError GameCreated :=
  match db.venues.find? (fun v => v.venue_id == gc.venue_id) with
  | none => (db, Except.error ⟨400, venueMissingMsg gc.venue_id⟩)
  | some v =>
    let g : Game := ⟨db.next_game_id, gc.game_title, gc.start_time, "scheduled", v.venue_id⟩
    ({ db with games := db.games ++ [g], next_game_id := db.next_game_id + 1 },
     Except.ok ⟨g.game_id, g.game_title, g.start_time, g.status, v.venue_id, v.venue_name⟩)

/-- Response body of `POST /games/{id}/results`: either the JSON object
`{"error": ...}` returned (with HTTP success status) when the game is
unknown, or the normal `{"game_id": ..., "inserted_results": ...}` body. -/
inductive AddResultsResponse where
  | errorBody (error : String)
  | ok (game_id : Nat) (inserted_results : Nat)
deriving DecidableEq

/-- Composite key test of the results table: the row belongs to this
`(game_id, player_id)` pair. -/
def keyEq (gid pid : Nat) (row : ResultRow) : Bool :=
  row.game_id == gid && row.player_id == pid

/-- The `DO UPDATE SET` clause: overwrite rank, points, kos and eliminator,
keeping the key columns. -/
def applyUpdate (rc : ResultCreate) (row : ResultRow) : ResultRow :=
  { row with finish_rank := rc.finish_rank, points := rc.points, kos := rc.kos,
             eliminated_by_player_id := rc.eliminated_by_player_id }

/-- The row a plain `INSERT` of this submission would create. -/
def mkRow (gid : Nat) (rc : ResultCreate) : ResultRow :=
  { game_id := gid, player_id := rc.player_id, finish_rank := rc.finish_rank,
    points := rc.points, kos := rc.kos,
    eliminated_by_player_id := rc.eliminated_by_player_id }

/-- Per-row effect of the conflict branch: rows with the conflicting key get
the `DO UPDATE SET` treatment, other rows are untouched. -/
def updRow (gid : Nat) (rc : ResultCreate) (row : ResultRow) : ResultRow :=
  if keyEq gid rc.player_id row then applyUpdate rc row else row

/-- `INSERT .. ON CONFLICT (game_id, player_id) DO UPDATE`: if a row with the
key exists, update it in place; otherwise append the new row. -/
def upsertResult (rows : List ResultRow) (gid : Nat) (rc : ResultCreate) : List ResultRow :=
  if rows.any (keyEq gid rc.player_id) then rows.map (updRow gid rc)
  else rows ++ [mkRow gid rc]

/-- POST /games/{game_id}/results (`add_results`): if the game is unknown,
return the `{"error": ...}` body with the database untouched; otherwise
upsert each submitted row in input order and report the length of the input
list as `inserted_results`. -/
def add_results (db : DB) (gid : Nat) (results : List ResultCreate) :
    DB × AddResultsResponse :=
  if gameExists db gid then
    ({ db with results := results.foldl (fun rows rc => upsertResult rows gid rc) db.results },
     AddResultsResponse.ok gid results.length)
  else
    (db, AddResultsResponse.errorBody (gameNotFoundMsg gid))

/-- POST /players (`create_player`): fetch any player whose lowercased name
equals the lowercased input; raise 409 naming the duplicate if found,
otherwise insert and return the new row. -/
def create_player (db : DB) (now : Nat) (pc : PlayerCreate) :
    DB × Except HTTPError Player :=
  match db.players.find? (fun p => lowerChars p.display_name == lowerChars pc.display_name) with
  | some _ => (db, Except.error ⟨409, playerDupMsg pc.display_name⟩)
  | none =>
    let p : Player := ⟨db.next_player_id, pc.display_name, pc.avatar_url, now⟩
    ({ db with players := db.players ++ [p], next_player_id := db.next_player_id + 1 },
     Except.ok p)

/-- POST /venues (`create_venue`): same check-then-insert shape as
`create_player`, on `venue_name`. -/
def create_venue (db : DB) (now : Nat) (vc : VenueCreate) :
    DB × Except HTTPError Venue :=
  match db.venues.find? (fun v => lowerChars v.venue_name == lowerChars vc.venue_name) with
  | some _ => (db, Except.error ⟨409, venueDupMsg vc.venue_name⟩)
  | none =>
    let v : Venue := ⟨db.next_venue_id, vc.venue_name, vc.address, vc.city, vc.state, now⟩
    ({ db with venues := db.venues ++ [v], next_venue_id := db.next_venue_id + 1 },
     Except.ok v)

/-- At most one results row per `(game_id, player_id)` pair: the composite
uniqueness the table's `ON CONFLICT` target constraint enforces. -/
def keyUnique (rows : List ResultRow) : Prop :=
  rows.Pairwise (fun a b => ¬(a.game_id = b.game_id ∧ a.player_id = b.player_id))

/-- Referential integrity of `results.game_id` (a foreign key the engine, an
external collaborator in the spec, enforces): every results row points at an
existing game. -/
def resultsGameFK (db : DB) : Prop :=
  ∀ r ∈ db.results, gameExists db r.game_id = true

/-- Characterwise prefix test (spec-side vocabulary). -/
def isPrefixB : List Char → List Char → Bool
  | [], _ => true
  | _ :: _, [] => false
  | c :: p, c2 :: s => c == c2 && isPrefixB p s

/-- Characterwise substring-containment test (spec-side vocabulary). -/
def isSubB : List Char → List Char → Bool
  | p, [] => isPrefixB p []
  | p, c :: s => isPrefixB p (c :: s) || isSubB p s

/-- Spec-side predicate, following the spec wording only: the name contains
the query as a substring, compared case-insensitively. -/
def substrCI (q s : String) : Bool := isSubB (lowerChars q) (lowerChars s)

/-- Spec-side variant of `list_venues`, following the spec wording only:
when the query is present, keep exactly the venues whose name contains it as
a case-insensitive substring. -/
def venuesBySubstr (db : DB) (limit : Nat) (q : Option String) : List Venue :=
  let rows :=
    match q with
    | none => db.venues
    | some qs => db.venues.filter (fun v => substrCI qs v.venue_name)
  (sortRows (fun a b => decide (b.created_at ≤ a.created_at)) rows).take limit

/-- Spec-side variant of `list_players`, following the spec wording only. -/
def playersBySubstr (db : DB) (limit : Nat) (q : Option String) : List Player :=
  let rows :=
    match q with
    | none => db.players
    | some qs => db.players.filter (fun p => substrCI qs p.display_name)
  (sortRows (fun a b => decide (b.created_at ≤ a.created_at)) rows).take limit

/-- Character that is special inside a `LIKE` pattern: a wildcard or the
escape character. -/
def likeSpecial (c : Char) : Bool := c == '%' || c == '_' || c == '\\'

/-- The lowercased query contains no `LIKE` wildcard or escape characters. -/
def plainQuery (q : String) : Bool := (lowerChars q).all (fun c => !likeSpecial c)

/-- Concrete database used by the witnesses: one venue, two players, one
game (id 1), no results yet. -/
def demoDB : DB where
  venues := [⟨1, "Spot", none, "Atlanta", "GA", 0⟩]
  players := [⟨2, "Ann", none, 0⟩, ⟨3, "Bob", none, 1⟩]
  games := [⟨1, "Weekly", 5, "scheduled", 1⟩]
  results := []
  next_venue_id := 2
  next_player_id := 4
  next_game_id := 2

/-- Concrete empty database used by the witnesses. -/
def emptyDB : DB where
  venues := []
  players := []
  games := []
  results := []
  next_venue_id := 1
  next_player_id := 1
  next_game_id := 1

/-- Concrete result submission used by the witnesses. -/
def demoRC : ResultCreate := ⟨1, 2, 10, 2, none⟩

/-- Concrete database for the `LIKE`-versus-substring counterexample: a
single venue whose name has no underscore in it. -/
def dbCx : DB where
  venues := [⟨1, "Club", none, "Atlanta", "GA", 0⟩]
  players := []
  games := []
  results := []
  next_venue_id := 2
  next_player_id := 1
  next_game_id := 1

/-- Unfolding of the composite-key test. -/
theorem keyEq_iff {g p : Nat} {row : ResultRow} :
    keyEq g p row = true ↔ row.game_id = g ∧ row.player_id = p := by
  simp [keyEq]

/-- The conflict update never touches the key columns. -/
theorem keyEq_updRow (g p gid : Nat) (rc : ResultCreate) (row : ResultRow) :
    keyEq g p (updRow gid rc row) = keyEq g p row := by
  unfold updRow
  split <;> rfl

/-- Updating a row that carries the conflicting key yields exactly the row a
fresh insert of the submission would produce. -/
theorem updRow_eq_mkRow {gid : Nat} {rc : ResultCreate} {row : ResultRow}
    (h : keyEq gid rc.player_id row = true) : updRow gid rc row = mkRow gid rc := by
  obtain ⟨h1, h2⟩ := keyEq_iff.mp h
  unfold updRow
  rw [if_pos h]
  cases row
  simp_all [applyUpdate, mkRow]

/-- In the conflict branch, filtering the updated table by the conflicting
key leaves exactly the freshly-written row, provided the table held at most
one row per key. -/
theorem filter_map_updRow_self (gid : Nat) (rc : ResultCreate) :
    ∀ rows : List ResultRow, keyUnique rows →
      rows.any (keyEq gid rc.player_id) = true →
      (rows.map (updRow gid rc)).filter (keyEq gid rc.player_id) = [mkRow gid rc] := by
  intro rows
  induction rows with
  | nil => intro _ h; simp at h
  | cons a t ih =>
    intro hu hany
    rw [keyUnique, List.pairwise_cons] at hu
    obtain ⟨ha, ht⟩ := hu
    simp only [List.map_cons, List.filter_cons, keyEq_updRow]
    by_cases hka : keyEq gid rc.player_id a = true
    · rw [if_pos hka, updRow_eq_mkRow hka]
      have htail : (t.map (updRow gid rc)).filter (keyEq gid rc.player_id) = [] := by
        rw [List.filter_eq_nil_iff]
        intro x hx
        obtain ⟨y, hy, rfl⟩ := List.mem_map.mp hx
        rw [keyEq_updRow]
        intro hky
        obtain ⟨hg1, hp1⟩ := keyEq_iff.mp hka
        obtain ⟨hg2, hp2⟩ := keyEq_iff.mp hky
        exact ha y hy ⟨hg1.trans hg2.symm, hp1.trans hp2.symm⟩
      rw [htail]
    · rw [if_neg hka]
      rw [List.any_cons] at hany
      have hta : t.any (keyEq gid rc.player_id) = true := by
        cases h2 : keyEq gid rc.player_id a
        · simpa [h2] using hany
        · exact absurd h2 hka
      exact ih ht hta

/-- In the conflict branch, filtering by any other key is unchanged. -/
theorem filter_map_updRow_other (gid : Nat) (rc : ResultCreate) (g p : Nat)
    (hne : ¬(g = gid ∧ p = rc.player_id)) :
    ∀ rows : List ResultRow,
      (rows.map (updRow gid rc)).filter (keyEq g p) = rows.filter (keyEq g p) := by
  intro rows
  induction rows with
  | nil => rfl
  | cons a t ih =>
    simp only [List.map_cons, List.filter_cons, keyEq_updRow]
    by_cases hka : keyEq g p a = true
    · have hrw : updRow gid rc a = a := by
        unfold updRow
        rw [if_neg]
        intro hk
        obtain ⟨hg1, hp1⟩ := keyEq_iff.mp hka
        obtain ⟨hg2, hp2⟩ := keyEq_iff.mp hk
        exact hne ⟨hg1.symm.trans hg2, hp1.symm.trans hp2⟩
      rw [if_pos hka, if_pos hka, hrw, ih]
    · rw [if_neg hka, if_neg hka, ih]

/-- The key a fresh insert writes. -/
theorem keyEq_mkRow (gid : Nat) (rc : ResultCreate) :
    keyEq gid rc.player_id (mkRow gid rc) = true := by
  simp [keyEq, mkRow]

/-- Filtering the upserted table by the submitted key leaves exactly the
submitted row. -/
theorem filter_upsert_self (rows : List ResultRow) (gid : Nat) (rc : ResultCreate)
    (hu : keyUnique rows) :
    (upsertResult rows gid rc).filter (keyEq gid rc.player_id) = [mkRow gid rc] := by
  unfold upsertResult
  by_cases hany : rows.any (keyEq gid rc.player_id) = true
  · rw [if_pos hany]
    exact filter_map_updRow_self gid rc rows hu hany
  · rw [if_neg hany, List.filter_append]
    have h1 : rows.filter (keyEq gid rc.player_id) = [] := by
      rw [List.filter_eq_nil_iff]
      intro x hx
      exact List.any_eq_false.mp (Bool.eq_false_iff.mpr hany) x hx
    rw [h1]
    simp [List.filter_cons, keyEq_mkRow gid rc]

/-- Filtering the upserted table by any other key is unchanged. -/
theorem filter_upsert_other (rows : List ResultRow) (gid : Nat) (rc : ResultCreate)
    (g p : Nat) (hne : ¬(g = gid ∧ p = rc.player_id)) :
    (upsertResult rows gid rc).filter (keyEq g p) = rows.filter (keyEq g p) := by
  unfold upsertResult
  by_cases hany : rows.any (keyEq gid rc.player_id) = true
  · rw [if_pos hany]
    exact filter_map_updRow_other gid rc g p hne rows
  · rw [if_neg hany, List.filter_append]
    have h1 : keyEq g p (mkRow gid rc) = false := by
      cases h : keyEq g p (mkRow gid rc)
      · rfl
      · obtain ⟨h1, h2⟩ := keyEq_iff.mp h
        exact absurd ⟨h1.symm, h2.symm⟩ hne
    simp [List.filter_cons, h1]

/-- The upsert preserves at-most-one-row-per-key. -/
theorem keyUnique_upsert (rows : List ResultRow) (gid : Nat) (rc : ResultCreate)
    (hu : keyUnique rows) : keyUnique (upsertResult rows gid rc) := by
  unfold upsertResult
  by_cases hany : rows.any (keyEq gid rc.player_id) = true
  · rw [if_pos hany]
    rw [keyUnique, List.pairwise_map]
    have hkeys : ∀ row : ResultRow, (updRow gid rc row).game_id = row.game_id ∧
        (updRow gid rc row).player_id = row.player_id := by
      intro row
      unfold updRow
      split <;> exact ⟨rfl, rfl⟩
    refine List.Pairwise.imp ?_ hu
    intro a b hab
    rw [(hkeys a).1, (hkeys a).2, (hkeys b).1, (hkeys b).2]
    exact hab
  · rw [if_neg hany, keyUnique, List.pairwise_append]
    refine ⟨hu, List.pairwise_singleton _ _, ?_⟩
    intro a ha b hb
    rw [List.mem_singleton] at hb
    subst hb
    intro hk
    have := List.any_eq_false.mp (Bool.eq_false_iff.mpr hany) a ha
    exact this (keyEq_iff.mpr ⟨hk.1.trans rfl, hk.2.trans rfl⟩)

/-- Folding a batch of upserts preserves at-most-one-row-per-key. -/
theorem keyUnique_foldl (gid : Nat) :
    ∀ (rcs : List ResultCreate) (rows : List ResultRow), keyUnique rows →
      keyUnique (rcs.foldl (fun acc rc => upsertResult acc gid rc) rows) := by
  intro rcs
  induction rcs with
  | nil => exact fun rows h => h
  | cons a t ih =>
    intro rows hu
    simp only [List.foldl_cons]
    exact ih _ (keyUnique_upsert rows gid a hu)

/-- After a batch of upserts, the rows of a key are the last submission for
that key in the batch, or whatever the table held if the batch never touched
the key. -/
theorem filter_foldl_upsert (gid pid : Nat) (rcs : List ResultCreate)
    (rows : List ResultRow) (hu : keyUnique rows) :
    ((rcs.foldl (fun acc rc => upsertResult acc gid rc) rows).filter (keyEq gid pid)) =
      match (rcs.filter (fun rc => rc.player_id == pid)).getLast? with
      | some rc => [mkRow gid rc]
      | none => rows.filter (keyEq gid pid) := by
  induction rcs using List.reverseRecOn with
  | nil => simp
  | append_singleton t a ih =>
    rw [List.foldl_append]
    simp only [List.foldl_cons, List.foldl_nil]
    have humid : keyUnique (t.foldl (fun acc rc => upsertResult acc gid rc) rows) :=
      keyUnique_foldl gid t rows hu
    by_cases hpa : (a.player_id == pid) = true
    · have hpa2 : a.player_id = pid := by simpa using hpa
      have hrhs : ((t ++ [a]).filter (fun rc => rc.player_id == pid)).getLast? = some a := by
        rw [List.filter_append]
        simp only [List.filter_cons, List.filter_nil, hpa, if_pos]
        exact List.getLast?_concat _
      rw [hrhs]
      rw [← hpa2]
      exact filter_upsert_self _ gid a humid
    · have hrhs : (t ++ [a]).filter (fun rc => rc.player_id == pid) =
          t.filter (fun rc => rc.player_id == pid) := by
        rw [List.filter_append]
        simp [List.filter_cons, hpa]
      rw [hrhs]
      rw [filter_upsert_other _ gid a gid pid (fun h => hpa (by simp [h.2]))]
      exact ih

/-- The games table is untouched by a successful `add_results` call. -/
theorem add_results_games (db : DB) (gid : Nat) (rcs : List ResultCreate) :
    (add_results db gid rcs).1.games = db.games := by
  unfold add_results
  split <;> rfl

/-- The results table produced by a successful `add_results` call. -/
theorem add_results_results (db : DB) (gid : Nat) (rcs : List ResultCreate)
    (hg : gameExists db gid = true) :
    (add_results db gid rcs).1.results =
      rcs.foldl (fun acc rc => upsertResult acc gid rc) db.results := by
  unfold add_results
  rw [if_pos hg]

/-- C1: for a game and player that exist, submitting the identical result row
twice via `add_results` leaves exactly one results row for that
`(game, player)` pair, carrying the submitted values, and the whole table
still has at most one row per pair. -/
theorem addResults_resubmit_overwrites (db : DB) (gid : Nat) (rc : ResultCreate)
    (hg : gameExists db gid = true)
    (hp : playerExists db rc.player_id = true)
    (hu : keyUnique db.results) :
    ((add_results (add_results db gid [rc]).1 gid [rc]).1.results.filter
        (keyEq gid rc.player_id) = [mkRow gid rc]) ∧
      keyUnique (add_results (add_results db gid [rc]).1 gid [rc]).1.results := by
  have hg1 : gameExists (add_results db gid [rc]).1 gid = true := by
    unfold gameExists
    rw [add_results_games]
    exact hg
  have h1 : (add_results db gid [rc]).1.results = upsertResult db.results gid rc := by
    rw [add_results_results db gid [rc] hg]
    rfl
  have h2 : (add_results (add_results db gid [rc]).1 gid [rc]).1.results =
      upsertResult (upsertResult db.results gid rc) gid rc := by
    rw [add_results_results _ gid [rc] hg1]
    simp only [List.foldl_cons, List.foldl_nil]
    rw [h1]
  have hu1 : keyUnique (upsertResult db.results gid rc) :=
    keyUnique_upsert db.results gid rc hu
  constructor
  · rw [h2]
    exact filter_upsert_self _ gid rc hu1
  · rw [h2]
    exact keyUnique_upsert _ gid rc hu1

/-- Witness for C1 on a concrete database. -/
theorem addResults_resubmit_overwrites_witness :
    gameExists demoDB 1 = true ∧ playerExists demoDB demoRC.player_id = true ∧
      List.Pairwise (fun a b => ¬(a.game_id = b.game_id ∧ a.player_id = b.player_id))
        demoDB.results ∧
      (((add_results (add_results demoDB 1 [demoRC]).1 1 [demoRC]).1.results.filter
          (keyEq 1 demoRC.player_id) = [mkRow 1 demoRC]) ∧
        keyUnique (add_results (add_results demoDB 1 [demoRC]).1 1 [demoRC]).1.results) :=
  ⟨by decide, by decide, List.Pairwise.nil,
    addResults_resubmit_overwrites demoDB 1 demoRC (by decide) (by decide) List.Pairwise.nil⟩

/-- C2: `add_results` for an unknown game returns the `{"error": ...}` body
through the normal success channel (`AddResultsResponse`, not an
`HTTPException`) and leaves the database untouched. -/
theorem addResults_unknown_game_soft_error (db : DB) (gid : Nat)
    (rcs : List ResultCreate) (hg : gameExists db gid = false) :
    add_results db gid rcs = (db, AddResultsResponse.errorBody (gameNotFoundMsg gid)) := by
  unfold add_results
  rw [if_neg (by simp [hg])]

/-- Witness for C2 on a concrete database. -/
theorem addResults_unknown_game_soft_error_witness :
    gameExists emptyDB 7 = false ∧
      add_results emptyDB 7 [demoRC] =
        (emptyDB, AddResultsResponse.errorBody (gameNotFoundMsg 7)) :=
  ⟨by decide, addResults_unknown_game_soft_error emptyDB 7 [demoRC] (by decide)⟩

/-- C7: on an existing game, `add_results` reports the length of the
submitted list as `inserted_results`, whatever the submissions are. -/
theorem addResults_reports_submitted_count (db : DB) (gid : Nat)
    (rcs : List ResultCreate) (hg : gameExists db gid = true) :
    (add_results db gid rcs).2 = AddResultsResponse.ok gid rcs.length := by
  unfold add_results
  rw [if_pos hg]

/-- Witness for C7: resubmitting the same player twice still reports 2. -/
theorem addResults_reports_submitted_count_witness :
    gameExists demoDB 1 = true ∧
      (add_results demoDB 1 [demoRC, demoRC]).2 = AddResultsResponse.ok 1 2 :=
  ⟨by decide, addResults_reports_submitted_count demoDB 1 [demoRC, demoRC] (by decide)⟩

/-- C10: within one `add_results` call on an existing game, rows are applied
in input order, so a player submitted several times ends with exactly one
results row, holding the values of the last submission for that player. -/
theorem addResults_last_write_wins (db : DB) (gid : Nat) (rcs : List ResultCreate)
    (pid : Nat) (rc : ResultCreate)
    (hg : gameExists db gid = true)
    (hu : keyUnique db.results)
    (hlast : (rcs.filter (fun x => x.player_id == pid)).getLast? = some rc) :
    (add_results db gid rcs).1.results.filter (keyEq gid pid) = [mkRow gid rc] := by
  rw [add_results_results db gid rcs hg]
  rw [filter_foldl_upsert gid pid rcs db.results hu, hlast]

/-- Witness for C10: two submissions for player 2 in one call, the second
one wins. -/
theorem addResults_last_write_wins_witness :
    gameExists demoDB 1 = true ∧
      List.Pairwise (fun a b => ¬(a.game_id = b.game_id ∧ a.player_id = b.player_id))
        demoDB.results ∧
      (([demoRC, ⟨3, 2, 50, 1, some 3⟩] :
          List ResultCreate).filter (fun x => x.player_id == 2)).getLast? =
        some ⟨3, 2, 50, 1, some 3⟩ ∧
      (add_results demoDB 1 [demoRC, ⟨3, 2, 50, 1, some 3⟩]).1.results.filter (keyEq 1 2) =
        [mkRow 1 (⟨3, 2, 50, 1, some 3⟩ : ResultCreate)] :=
  ⟨by decide, List.Pairwise.nil, by decide,
    addResults_last_write_wins demoDB 1 [demoRC, ⟨3, 2, 50, 1, some 3⟩] 2
      ⟨3, 2, 50, 1, some 3⟩ (by decide) List.Pairwise.nil (by decide)⟩

/-- C3: for a game id with no matching game, `get_game` raises 404 while
`game_results` returns the empty list (given the engine-enforced foreign key
from results to games). -/
theorem getGame_404_gameResults_empty (db : DB) (gid : Nat)
    (hg : gameExists db gid = false) (hfk : resultsGameFK db) :
    get_game db gid = Except.error ⟨404, gameNotFoundMsg gid⟩ ∧
      game_results db gid = [] := by
  constructor
  · unfold get_game
    have hfind : db.games.find? (fun g => g.game_id == gid) = none := by
      rw [List.find?_eq_none]
      exact List.any_eq_false.mp hg
    rw [hfind]
  · unfold game_results leaderboardRows
    have hfilter : db.results.filter (fun r => r.game_id == gid) = [] := by
      rw [List.filter_eq_nil_iff]
      intro r hr hbe
      have hge : r.game_id = gid := by simpa using hbe
      have := hfk r hr
      rw [hge, hg] at this
      exact Bool.false_ne_true this
    rw [hfilter]
    rfl

/-- Witness for C3: game id 9 was never created. -/
theorem getGame_404_gameResults_empty_witness :
    gameExists demoDB 9 = false ∧ (∀ r ∈ demoDB.results, gameExists demoDB r.game_id = true) ∧
      (get_game demoDB 9 = Except.error ⟨404, gameNotFoundMsg 9⟩ ∧
        game_results demoDB 9 = []) :=
  ⟨by decide, by decide,
    getGame_404_gameResults_empty demoDB 9 (by decide) (by unfold resultsGameFK; decide)⟩

/-- C4: when a venue and a player with case-insensitively equal names already
exist, `create_venue` and `create_player` both fail with 409 naming the
duplicate value and insert nothing (the returned state is the input state). -/
theorem create_conflict_409 (db : DB) (now : Nat) (vc : VenueCreate) (pc : PlayerCreate)
    (hv : ∃ w ∈ db.venues, lowerChars w.venue_name = lowerChars vc.venue_name)
    (hp : ∃ q ∈ db.players, lowerChars q.display_name = lowerChars pc.display_name) :
    create_venue db now vc = (db, Except.error ⟨409, venueDupMsg vc.venue_name⟩) ∧
      create_player db now pc = (db, Except.error ⟨409, playerDupMsg pc.display_name⟩) := by
  constructor
  · cases hfind : db.venues.find? (fun v => lowerChars v.venue_name == lowerChars vc.venue_name) with
    | none =>
      rw [List.find?_eq_none] at hfind
      obtain ⟨w, hw, he⟩ := hv
      exact absurd (by simpa using he) (hfind w hw)
    | some w =>
      unfold create_venue
      rw [hfind]
  · cases hfind : db.players.find? (fun p => lowerChars p.display_name == lowerChars pc.display_name) with
    | none =>
      rw [List.find?_eq_none] at hfind
      obtain ⟨q, hq, he⟩ := hp
      exact absurd (by simpa using he) (hfind q hq)
    | some q =>
      unfold create_player
      rw [hfind]

/-- Witness for C4: "SPOT" and "ANN" collide with the stored "Spot" and
"Ann" despite the case difference. -/
theorem create_conflict_409_witness :
    (∃ w ∈ demoDB.venues, lowerChars w.venue_name = lowerChars "SPOT") ∧
      (∃ q ∈ demoDB.players, lowerChars q.display_name = lowerChars "ANN") ∧
      (create_venue demoDB 3 ⟨"SPOT", none, "Atlanta", "GA"⟩ =
          (demoDB, Except.error ⟨409, venueDupMsg "SPOT"⟩) ∧
        create_player demoDB 3 ⟨"ANN", none⟩ =
          (demoDB, Except.error ⟨409, playerDupMsg "ANN"⟩)) :=
  ⟨by decide, by decide,
    create_conflict_409 demoDB 3 ⟨"SPOT", none, "Atlanta", "GA"⟩ ⟨"ANN", none⟩
      (by decide) (by decide)⟩

/-- C5: `create_game` for a venue id matching no venue fails with the 400
client error and creates no game row (the returned state is the input
state). -/
theorem createGame_unknown_venue_400 (db : DB) (gc : GameCreate)
    (hv : ∀ v ∈ db.venues, v.venue_id ≠ gc.venue_id) :
    create_game db gc = (db, Except.error ⟨400, venueMissingMsg gc.venue_id⟩) := by
  have hfind : db.venues.find? (fun v => v.venue_id == gc.venue_id) = none := by
    rw [List.find?_eq_none]
    intro v hvm hbe
    exact hv v hvm (by simpa using hbe)
  unfold create_game
  rw [hfind]

/-- Witness for C5: venue id 5 does not exist in the demo database. -/
theorem createGame_unknown_venue_400_witness :
    (∀ v ∈ demoDB.venues, v.venue_id ≠ 5) ∧
      create_game demoDB ⟨"Weekly", 5, 5⟩ =
        (demoDB, Except.error ⟨400, venueMissingMsg 5⟩) :=
  ⟨by decide, createGame_unknown_venue_400 demoDB ⟨"Weekly", 5, 5⟩ (by decide)⟩

/-- C6: when the referenced venue exists, the inserted game row carries
status "scheduled" (the request body has no status field at all), and the
response embeds the venue name found by the existence check. -/
theorem createGame_forces_scheduled (db : DB) (gc : GameCreate) (v : Venue)
    (hv : db.venues.find? (fun w => w.venue_id == gc.venue_id) = some v) :
    (create_game db gc).1.games =
      db.games ++ [⟨db.next_game_id, gc.game_title, gc.start_time, "scheduled", v.venue_id⟩] ∧
      (create_game db gc).2 =
        Except.ok ⟨db.next_game_id, gc.game_title, gc.start_time, "scheduled",
          v.venue_id, v.venue_name⟩ := by
  unfold create_game
  rw [hv]
  exact ⟨rfl, rfl⟩

/-- Witness for C6 on the demo database. -/
theorem createGame_forces_scheduled_witness :
    demoDB.venues.find? (fun w => w.venue_id == 1) = some ⟨1, "Spot", none, "Atlanta", "GA", 0⟩ ∧
      ((create_game demoDB ⟨"Weekly", 5, 1⟩).1.games =
          demoDB.games ++ [⟨demoDB.next_game_id, "Weekly", 5, "scheduled", 1⟩] ∧
        (create_game demoDB ⟨"Weekly", 5, 1⟩).2 =
          Except.ok ⟨demoDB.next_game_id, "Weekly", 5, "scheduled", 1, "Spot"⟩) :=
  ⟨by decide,
    createGame_forces_scheduled demoDB ⟨"Weekly", 5, 1⟩ ⟨1, "Spot", none, "Atlanta", "GA", 0⟩
      (by decide)⟩

/-- C9: for all three list endpoints, passing the filter parameter as the
empty string takes the same branch as omitting it (Python string
truthiness), so the responses coincide. -/
theorem emptyQuery_same_as_absent (db : DB) (limit : Nat) :
    list_games db limit (some "") = list_games db limit none ∧
      list_players db limit (some "") = list_players db limit none ∧
      list_venues db limit (some "") = list_venues db limit none := by
  refine ⟨?_, ?_, ?_⟩ <;> simp [list_games, list_players, list_venues]

/-- A one-step unfolding of `lexLike` on a percent head. -/
theorem lexLike_percent (ps : List Char) : lexLike ('%' :: ps) = Tok.many :: lexLike ps := by
  conv_lhs => unfold lexLike
  simp

/-- A one-step unfolding of `lexLike` on an ordinary character. -/
theorem lexLike_cons_plain (c : Char) (ps : List Char) (h1 : (c == '%') = false)
    (h2 : (c == '_') = false) (h3 : (c == '\\') = false) :
    lexLike (c :: ps) = Tok.lit c :: lexLike ps := by
  conv_lhs => unfold lexLike
  rw [if_neg (by simp [h3]), if_neg (by simp [h1]), if_neg (by simp [h2])]

/-- Parsing a pattern segment free of wildcard and escape characters yields
literal tokens. -/
theorem lexLike_plain_append (l : List Char) (ps : List Char)
    (hl : l.all (fun c => !likeSpecial c) = true) :
    lexLike (l ++ ps) = l.map Tok.lit ++ lexLike ps := by
  induction l with
  | nil => rfl
  | cons c t ih =>
    rw [List.all_cons, Bool.and_eq_true] at hl
    obtain ⟨hc, ht⟩ := hl
    have hc2 : likeSpecial c = false := by
      cases h : likeSpecial c
      · rfl
      · rw [h] at hc; exact absurd hc (by decide)
    unfold likeSpecial at hc2
    rw [Bool.or_eq_false_iff, Bool.or_eq_false_iff] at hc2
    obtain ⟨⟨h1, h2⟩, h3⟩ := hc2
    show lexLike (c :: (t ++ ps)) = Tok.lit c :: (t.map Tok.lit ++ lexLike ps)
    rw [lexLike_cons_plain c (t ++ ps) h1 h2 h3, ih ht]

/-- The suffix list always ends with (hence contains) the empty suffix, so a
pattern that is a single `%` matches anything. -/
theorem toksMatch_many_only (s : List Char) : toksMatch [Tok.many] s = true := by
  have key : ∀ s : List Char, (sufs s).any (fun t => toksMatch [] t) = true := by
    intro s
    induction s with
    | nil => rfl
    | cons c t ih =>
      show (toksMatch [] (c :: t) || (sufs t).any (fun u => toksMatch [] u)) = true
      rw [ih, Bool.or_true]
  show (sufs s).any (fun t => toksMatch [] t) = true
  exact key s

/-- A literal segment followed by `%` matches exactly the strings the
segment is a prefix of. -/
theorem toksMatch_litmap (l : List Char) :
    ∀ t : List Char, toksMatch (l.map Tok.lit ++ [Tok.many]) t = isPrefixB l t := by
  induction l with
  | nil =>
    intro t
    show toksMatch [Tok.many] t = isPrefixB [] t
    rw [toksMatch_many_only]
    rfl
  | cons c l ih =>
    intro t
    cases t with
    | nil => rfl
    | cons c2 t =>
      show (c == c2 && toksMatch (l.map Tok.lit ++ [Tok.many]) t) = (c == c2 && isPrefixB l t)
      rw [ih t]

/-- Substring containment equals matching some suffix by prefix. -/
theorem isSubB_any_sufs (l : List Char) :
    ∀ s : List Char, isSubB l s = (sufs s).any (fun t => isPrefixB l t) := by
  intro s
  induction s with
  | nil =>
    show isPrefixB l [] = (isPrefixB l [] || false)
    rw [Bool.or_false]
  | cons c s ih =>
    show (isPrefixB l (c :: s) || isSubB l s) =
      (isPrefixB l (c :: s) || (sufs s).any (fun t => isPrefixB l t))
    rw [ih]

/-- For a wildcard-free segment `l`, the `LIKE` pattern `%l%` accepts exactly
the strings containing `l` as a substring. -/
theorem likeMatch_plain (l s : List Char) (hl : l.all (fun c => !likeSpecial c) = true) :
    likeMatch ('%' :: (l ++ ['%'])) s = isSubB l s := by
  unfold likeMatch
  rw [lexLike_percent, lexLike_plain_append l ['%'] hl]
  have h1 : lexLike ['%'] = [Tok.many] := rfl
  rw [h1]
  have h2 : toksMatch (Tok.many :: (l.map Tok.lit ++ [Tok.many])) s =
      (sufs s).any (fun t => toksMatch (l.map Tok.lit ++ [Tok.many]) t) := by
    cases s <;> rfl
  rw [h2, isSubB_any_sufs]
  congr 1
  funext t
  exact toksMatch_litmap l t

/-- Lowercasing the `'%' || q || '%'` pattern lowercases just the query
part. -/
theorem lowerChars_likePattern (q : String) :
    lowerChars ("%" ++ q ++ "%") = '%' :: (lowerChars q ++ ['%']) := by
  unfold lowerChars
  rw [String.data_append, String.data_append]
  have h1 : ("%" : String).data = ['%'] := rfl
  rw [h1, List.map_append, List.map_append]
  rfl

/-- For wildcard-free queries the endpoint filter is exactly case-insensitive
substring containment. -/
theorem likeFilterCI_eq_substrCI (q s : String) (hq : plainQuery q = true) :
    likeFilterCI q s = substrCI q s := by
  unfold likeFilterCI substrCI
  rw [lowerChars_likePattern, likeMatch_plain _ _ hq]

/-- The empty query is contained in every string. -/
theorem substrCI_empty (s : String) : substrCI "" s = true := by
  unfold substrCI
  have h1 : lowerChars "" = [] := rfl
  rw [h1]
  cases h : lowerChars s with
  | nil => rfl
  | cons c t =>
    show (isPrefixB [] (c :: t) || isSubB [] t) = true
    rfl

/-- The endpoint filter only depends on the lowercased query. -/
theorem likeFilterCI_lower_congr (q q2 s : String) (h : lowerChars q2 = lowerChars q) :
    likeFilterCI q2 s = likeFilterCI q s := by
  unfold likeFilterCI
  rw [lowerChars_likePattern, lowerChars_likePattern, h]

/-- A string with an empty lowercase image is the empty string. -/
theorem eq_empty_of_lowerChars_nil (q : String) (h : lowerChars q = []) : q = "" := by
  unfold lowerChars at h
  rw [List.map_eq_nil_iff] at h
  exact String.ext h

/-- C8 (amended): for a query whose lowercase form contains no `LIKE`
wildcard or escape character, `list_venues` and `list_players` return
exactly the case-insensitive substring matches (the spec-side definitions),
and a query differing only in letter case gives the same responses. -/
theorem listFilters_substring_when_plain (db : DB) (limit : Nat) (q q2 : String)
    (hq : plainQuery q = true) (hq2 : lowerChars q2 = lowerChars q) :
    list_venues db limit (some q) = venuesBySubstr db limit (some q) ∧
      list_players db limit (some q) = playersBySubstr db limit (some q) ∧
      list_venues db limit (some q2) = list_venues db limit (some q) ∧
      list_players db limit (some q2) = list_players db limit (some q) := by
  by_cases hqe : q = ""
  · subst hqe
    have hq2e : q2 = "" := eq_empty_of_lowerChars_nil q2 (by rw [hq2]; rfl)
    subst hq2e
    refine ⟨?_, ?_, rfl, rfl⟩
    · unfold list_venues venuesBySubstr
      dsimp only
      rw [if_pos (rfl : ("" : String) = ""),
        List.filter_eq_self.mpr (fun a _ => substrCI_empty a.venue_name)]
    · unfold list_players playersBySubstr
      dsimp only
      rw [if_pos (rfl : ("" : String) = ""),
        List.filter_eq_self.mpr (fun a _ => substrCI_empty a.display_name)]
  · have hq2e : ¬q2 = "" := by
      intro h
      apply hqe
      apply eq_empty_of_lowerChars_nil
      rw [← hq2, h]
      rfl
    refine ⟨?_, ?_, ?_, ?_⟩
    · unfold list_venues venuesBySubstr
      dsimp only
      rw [if_neg hqe,
        List.filter_congr (fun v _ => likeFilterCI_eq_substrCI q v.venue_name hq)]
    · unfold list_players playersBySubstr
      dsimp only
      rw [if_neg hqe,
        List.filter_congr (fun p _ => likeFilterCI_eq_substrCI q p.display_name hq)]
    · unfold list_venues
      dsimp only
      rw [if_neg hq2e, if_neg hqe,
        List.filter_congr (fun v _ => likeFilterCI_lower_congr q q2 v.venue_name hq2)]
    · unfold list_players
      dsimp only
      rw [if_neg hq2e, if_neg hqe,
        List.filter_congr (fun p _ => likeFilterCI_lower_congr q q2 p.display_name hq2)]

/-- Witness for the amended C8 at a concrete database and query. -/
theorem listFilters_substring_when_plain_witness :
    plainQuery "lub" = true ∧ lowerChars "LUB" = lowerChars "lub" ∧
      (list_venues dbCx 50 (some "lub") = venuesBySubstr dbCx 50 (some "lub") ∧
        list_players dbCx 50 (some "lub") = playersBySubstr dbCx 50 (some "lub") ∧
        list_venues dbCx 50 (some "LUB") = list_venues dbCx 50 (some "lub") ∧
        list_players dbCx 50 (some "LUB") = list_players dbCx 50 (some "lub")) :=
  ⟨by decide, by decide,
    listFilters_substring_when_plain dbCx 50 "lub" "LUB" (by decide) (by decide)⟩

/-- C8 counterexample: for the query "_" (a `LIKE` single-character
wildcard), `list_venues` does not return the venues containing "_" as a
substring — the venue "Club" matches `LIKE` but is not a substring match. -/
theorem listVenues_like_not_substring :
    ¬(list_venues dbCx 50 (some "_") = venuesBySubstr dbCx 50 (some "_")) := by
  decide

end PokerApi
